import Mathlib

/-!
Verification of the request-orchestration and category-tree core of the
pymediawiki client (src/mediawiki/mediawiki.py and src/mediawiki/utilities.py).

Python dictionaries are embedded as insertion-ordered association lists with
an insert-or-replace operation, machine-independent times as natural numbers,
and the HTTP layer as explicit oracle functions supplied per call.  Raised
exceptions are values of the inductive type Raised.
-/

set_option autoImplicit false

namespace MWiki

/-! ### Association lists: the embedding of Python dicts -/

/-- Lookup in an insertion-ordered association list (Python dict access). -/
def lookupA {β : Type} : List (String × β) → String → Option β
  | [], _ => none
  | (k, v) :: t, q => if k = q then some v else lookupA t q

/-- Insert-or-replace (Python dict item assignment): replaces in place when the
key exists, otherwise appends at the end, preserving insertion order. -/
def upsert {β : Type} : List (String × β) → String → β → List (String × β)
  | [], k, v => [(k, v)]
  | (k0, v0) :: t, k, v => if k0 = k then (k, v) :: t else (k0, v0) :: upsert t k v

/-- The keys of an association list, in insertion order. -/
def keysOf {β : Type} (l : List (String × β)) : List String := l.map Prod.fst

/-- Python str.lower(), character by character. -/
def strLower (s : String) : String := ⟨s.data.map Char.toLower⟩

/-- Python str.strip(): whitespace removed from both ends. -/
def strStrip (s : String) : String :=
  ⟨((s.data.dropWhile (fun c => c.isWhitespace)).reverse.dropWhile
      (fun c => c.isWhitespace)).reverse⟩

/-! ### Raised exceptions (mediawiki/exceptions.py classes that appear in the
sources under verification) -/

/-- The exceptions the core can raise, carrying the data the code puts into
them. -/
inductive Raised where
  | httpTimeout (query : String)
  | geoCoord (info : String)
  | apiError (info : String)
  | valueError (msg : String)
  | pageNotFound (title : String)
  | catTreeError (category : String)
  | interrupted
  | apiUrlError (url : String)
  deriving DecidableEq

/-! ### utilities.memoize -/

/-- The memoize cache attached to a client: one partition per operation name
(`cache[func.__name__]`, keys mapping to `(timestamp, value)` pairs) and the
special defaults partition (`cache["defaults"]`) holding each operation's
captured parameter defaults. -/
structure MemoCache (α : Type) where
  funcs : List (String × List (String × (Nat × α)))
  defaults : List (String × List (String × String))
  deriving DecidableEq

/-- The empty memoize cache. -/
def memoEmpty {α : Type} : MemoCache α := ⟨[], []⟩

/-- Insertion of a string into an ascending list (helper for sorting). -/
def insertStr (s : String) : List String → List String
  | [] => [s]
  | t :: ts => if s ≤ t then s :: t :: ts else t :: insertStr s ts

/-- Ascending sort of strings (Python sorted on dict keys). -/
def sortStrs : List String → List String
  | [] => []
  | t :: ts => insertStr t (sortStrs ts)

/-- Key construction of utilities.memoize: the positional arguments (past
self) followed by one formatted piece per named parameter, sorted by
parameter name, joined by " - ". -/
def buildKey (posArgs : List String) (merged : List (String × String)) : String :=
  String.intercalate " - "
    (posArgs ++ (sortStrs (keysOf merged)).map
      (fun k => "(" ++ k ++ ": " ++ ((lookupA merged k).getD "") ++ ")"))

/-- One call through the utilities.memoize wrapper.  Arguments mirror what the
wrapper reads from self (use_cache, refresh_interval, the cache) and from the
wrapped function (its name, its declared defaults from parse_all_arguments,
the positional and keyword arguments of the call).  Returns the value, the
updated cache, and how many times the wrapped function was invoked (0 or 1).
-/
def memoizeCall {α : Type} (useCache : Bool) (refresh : Option Nat) (now : Nat)
    (fname : String) (fdefaults : List (String × String))
    (posArgs : List String) (kwargs : List (String × String))
    (compute : Unit → α) (cache : MemoCache α) : α × MemoCache α × Nat :=
  if useCache = false then (compute (), cache, 1)
  else
    let cache1 :=
      match lookupA cache.funcs fname with
      | some _ => cache
      | none =>
        { funcs := upsert cache.funcs fname [],
          defaults := upsert cache.defaults fname fdefaults }
    let defs := (lookupA cache1.defaults fname).getD fdefaults
    let merged := kwargs.foldl (fun d kv => upsert d kv.1 kv.2) defs
    let key := buildKey posArgs merged
    let entries := (lookupA cache1.funcs fname).getD []
    match lookupA entries key with
    | none =>
      let v := compute ()
      (v, { cache1 with funcs := upsert cache1.funcs fname (upsert entries key (now, v)) }, 1)
    | some tv =>
      match refresh with
      | some r =>
        if now - tv.1 > r then
          let v := compute ()
          (v, { cache1 with funcs := upsert cache1.funcs fname (upsert entries key (now, v)) }, 1)
        else (tv.2, cache1, 0)
      | none => (tv.2, cache1, 0)

/-! ### MediaWiki._check_error_response and MediaWiki._check_query -/

/-- The known timeout / pool-exhaustion phrases (http_error in the code). -/
def httpErrorInfos : List String := ["HTTP request timed out.", "Pool queue is full"]

/-- The known geocoordinate phrases (geo_error in the code). -/
def geoErrorInfos : List String :=
  ["Page coordinates unknown.",
   "One of the parameters gscoord, gspage, gsbbox is required",
   "Invalid coordinate provided"]

/-- MediaWiki._check_error_response: given the info field of the error object
of an API response (none when the response has no error object), the exception
raised, if any. -/
def check_error_response (errInfo : Option String) (query : String) : Option Raised :=
  match errInfo with
  | none => none
  | some err =>
    if err ∈ httpErrorInfos then some (.httpTimeout query)
    else if err ∈ geoErrorInfos then some (.geoCoord err)
    else some (.apiError err)

/-- MediaWiki._check_query: raises ValueError(message) when the value is
missing or whitespace-blank. -/
def check_query (value : Option String) (message : String) : Option Raised :=
  match value with
  | none => some (.valueError message)
  | some v => if strStrip v = "" then some (.valueError message) else none

/-! ### MediaWiki.categorymembers: the pagination loop -/

/-- One API response inside the categorymembers loop: the categorymembers
records as (type, title) pairs, the continuation token (query-continue /
continue, none when the response carries neither), and the info field of an
error object when one is present.  The token type is abstract; the loop only
equality-compares tokens. -/
structure CMResponse (τ : Type) where
  members : List (String × String)
  contTok : Option τ
  errInfo : Option String

/-- Outcome of a categorymembers call: the (pages, subcategories) lists, or a
raised exception. -/
inductive CMResult where
  | ok (pages subcats : List String)
  | raised (e : Raised)
  deriving DecidableEq

/-- The subcategory title adjustment: when the title starts with the category
prefix, the prefix and the following colon are removed. -/
def stripCatPfx (cp title : String) : String :=
  if cp.isPrefixOf title then title.drop (cp.length + 1) else title

/-- The member-collection pass of one loop iteration: page and file records
append their title to pages, subcat records append their adjusted title to
subcats, anything else is skipped. -/
def collectMembers (cp : String) : List (String × String) →
    List String → List String → List String × List String
  | [], pages, subcats => (pages, subcats)
  | (mtype, title) :: rest, pages, subcats =>
    if mtype = "page" ∨ mtype = "file" then
      collectMembers cp rest (pages ++ [title]) subcats
    else if mtype = "subcat" then
      collectMembers cp rest pages (subcats ++ [stripCatPfx cp title])
    else collectMembers cp rest pages subcats

/-- The while loop of MediaWiki.categorymembers.  The api oracle maps the
varying request parameters (the current cmlimit and the merged-in continuation
token) to a response.  The loop state is (cmlimit of search_params, last_cont,
pages, subcats, returned_results); fuel bounds the number of iterations and a
none result means the fuel ran out before the loop exited. -/
def cmLoop {τ : Type} [DecidableEq τ] (api : Nat → Option τ → CMResponse τ)
    (category cp : String) (results : Option Nat) (maxPull : Nat) :
    Nat → Nat → Option τ → List String → List String → Nat → Option CMResult
  | 0, _, _, _, _, _ => none
  | fuel + 1, cmlimit, lastCont, pages, subcats, returnedResults =>
    let raw := api cmlimit lastCont
    match check_error_response raw.errInfo category with
    | some e => some (.raised e)
    | none =>
      let ps := collectMembers cp raw.members pages subcats
      let currentPull := raw.members.length
      match raw.contTok with
      | none => some (.ok ps.1 ps.2)
      | some c =>
        if lastCont = some c then some (.ok ps.1 ps.2)
        else
          let returned2 := returnedResults + currentPull
          let keepGoing := match results with
            | none => true
            | some r => decide (0 < r - returned2)
          let cmlimit2 := match results with
            | none => cmlimit
            | some r => if r - returned2 < maxPull then r - returned2 else cmlimit
          if keepGoing then
            cmLoop api category cp results maxPull fuel cmlimit2 (some c) ps.1 ps.2 returned2
          else some (.ok ps.1 ps.2)

/-- MediaWiki.categorymembers: validation, initial cmlimit, then the loop.
The result always carries both lists; the code returns the pair when
subcategories is requested and just the pages list otherwise. -/
def categorymembers {τ : Type} [DecidableEq τ] (api : Nat → Option τ → CMResponse τ)
    (cp category : String) (results : Option Nat) (fuel : Nat) : Option CMResult :=
  match check_query (some category) "Category must be specified" with
  | some e => some (.raised e)
  | none =>
    let cmlimit := match results with | some r => min r 500 | none => 500
    cmLoop api category cp results 500 fuel cmlimit none [] [] 0

/-- An honest paginated source over a fixed member list: tokens are offsets,
a request returns the next cmlimit page-typed members from its offset and a
continuation token exactly when members remain past the batch. -/
def honestApi (src : List String) (limit : Nat) (lastCont : Option Nat) : CMResponse Nat :=
  let offset := lastCont.getD 0
  { members := ((src.drop offset).take limit).map (fun t => ("page", t)),
    contTok := if offset + limit < src.length then some (offset + limit) else none,
    errInfo := none }

/-! ### MediaWiki.categorytree and __cat_tree_rec -/

/-- A finished category tree node: depth level, page links, parent categories,
and the sub-categories mapping whose values are child nodes or the null
placeholder written when the depth limit is reached. -/
inductive CatNode where
  | mk (depth : Nat) (links : List String) (parents : List String)
      (subcats : List (String × Option CatNode))

/-- The depth level recorded in a node. -/
def CatNode.depth : CatNode → Nat
  | .mk d _ _ _ => d

/-- The page links recorded in a node. -/
def CatNode.links : CatNode → List String
  | .mk _ l _ _ => l

/-- The parent categories recorded in a node. -/
def CatNode.parents : CatNode → List String
  | .mk _ _ p _ => p

/-- The sub-categories mapping of a node. -/
def CatNode.subcats : CatNode → List (String × Option CatNode)
  | .mk _ _ _ s => s

/-- The two run-local accumulators of one categorytree invocation: the
resolved-categories mapping (category name to its parent-category list, the
piece of the cached page object the recursion reads) and the member-links
mapping (category name to its (pages, subcategories) pair). -/
structure TState where
  categories : List (String × List String)
  links : List (String × (List String × List String))

/-- The test `if depth and level >= depth` of __cat_tree_rec: depth is truthy
(not None and nonzero) and the level has reached it. -/
def depthReached (depth : Option Int) (level : Nat) : Bool :=
  match depth with
  | none => false
  | some d => decide (d ≠ 0) && decide ((level : Int) ≥ d)

/-- The iteration of __cat_tree_rec over a subcategory list: each entry is
resolved by the recursion oracle (a fuel-instantiated __cat_tree_rec) in list
order, threading the run-local state, and written into the mapping under
construction; a none from the oracle (fuel exhaustion) aborts. -/
def catTreeListGo (recf : String → Nat → TState → Option (CatNode × TState)) :
    List String → Nat → List (String × Option CatNode) → TState →
    Option (List (String × Option CatNode) × TState)
  | [], _, acc, st => some (acc, st)
  | c :: rest, level, acc, st =>
    match recf c level st with
    | none => none
    | some ns => catTreeListGo recf rest level (upsert acc c (some ns.1)) ns.2

/-- The category-resolution step of __cat_tree_rec: when the category is
already in the resolved mapping its parent categories are reused; otherwise
fetch gives its parent categories and its (pages, subcategories) member pair
(the page-object fetch and the categorymembers call of the code) and both
run-local mappings are filled. -/
def catResolve (fetch : String → List String × (List String × List String))
    (cat : String) (st : TState) : List String × TState :=
  match lookupA st.categories cat with
  | some pcs => (pcs, st)
  | none =>
    let r := fetch cat
    (r.1, ⟨upsert st.categories cat r.1, upsert st.links cat r.2⟩)

/-- MediaWiki.__cat_tree_rec with all fetches succeeding.  The node records
the level, the links, the parent categories, and either null placeholders for
every subcategory (depth limit reached) or the recursively built child nodes.
Recursion is bounded by fuel; none reports fuel exhaustion. -/
def catTreeRec (fetch : String → List String × (List String × List String)) :
    Nat → Option Int → String → Nat → TState → Option (CatNode × TState)
  | 0, _, _, _, _ => none
  | fuel + 1, depth, cat, level, st =>
    let fr := catResolve fetch cat st
    match lookupA fr.2.links cat with
    | none => none
    | some pl =>
      if depthReached depth level then
        some (⟨level, pl.1, fr.1, pl.2.foldl (fun m s => upsert m s none) []⟩, fr.2)
      else
        match catTreeListGo (fun c lvl s => catTreeRec fetch fuel depth c lvl s)
            pl.2 (level + 1) [] fr.2 with
        | none => none
        | some ms => some (⟨level, pl.1, fr.1, ms.1⟩, ms.2)

/-- The category argument of categorytree: a single name or a list of names.
-/
inductive CatInput where
  | one (s : String)
  | many (l : List String)

/-- The depth test of __category_parameter_verification: depth is not None and
below 1. -/
def depthInvalid (depth : Option Int) : Bool :=
  match depth with
  | none => false
  | some d => decide (d < 1)

/-- MediaWiki.categorytree: wraps a single name into a list, runs
__category_parameter_verification, then builds the tree for every truthy
(nonempty) name at level 0 sharing the two run-local accumulators.  An ok none
result reports fuel exhaustion. -/
def categorytree (fetch : String → List String × (List String × List String))
    (fuel : Nat) (category : CatInput) (depth : Option Int) :
    Except Raised (Option (List (String × Option CatNode) × TState)) :=
  let cats := match category with | .one s => [s] | .many l => l
  if cats.length = 1 ∧ cats.headD "x" = "" then
    .error (.valueError
      ("CategoryTree: Parameter category must either be a list of one or more categories or a string; provided: "
        ++ cats.headD ""))
  else if depthInvalid depth then
    .error (.valueError
      "CategoryTree: Parameter depth must be either None (for the full tree) or be greater than 0")
  else
    match catTreeListGo (fun c lvl s => catTreeRec fetch fuel depth c lvl s)
        (cats.filter (fun x => x ≠ "")) 0 [] ⟨[], []⟩ with
    | none => .ok none
    | some ms => .ok (some ms)

/-! ### The bounded retry of __cat_tree_rec -/

/-- Outcome of one attempt to resolve a category (the page fetch plus the
member fetch of the try block): success with the fetched data, a PageError, a
KeyboardInterrupt, or any other exception. -/
inductive FetchOutcome (α : Type) where
  | success (v : α)
  | notFound
  | interrupt
  | failure

/-- Result of the retry loop: the fetched data or a raised exception, together
with the number of 1-unit sleeps performed. -/
inductive RetryResult (α : Type) where
  | ok (v : α) (sleeps : Nat)
  | raised (e : Raised) (sleeps : Nat)

/-- The `while True` retry loop of __cat_tree_rec: more than 10 accumulated
failures raise MediaWikiCategoryTreeError(cat); a PageError is re-raised as
PageError(prefix:cat); a KeyboardInterrupt propagates; any other exception
sleeps one unit, increments the counter and refetches.  fetchAt gives the
outcome of attempt number tries. -/
def catFetchRetry {α : Type} (fetchAt : Nat → FetchOutcome α) (cp cat : String)
    (tries sleeps : Nat) : RetryResult α :=
  if tries > 10 then .raised (.catTreeError cat) sleeps
  else
    match fetchAt tries with
    | .success v => .ok v sleeps
    | .notFound => .raised (.pageNotFound (cp ++ ":" ++ cat)) sleeps
    | .interrupt => .raised .interrupted sleeps
    | .failure => catFetchRetry fetchAt cp cat (tries + 1) (sleeps + 1)
termination_by 11 - tries
decreasing_by simp_wf; omega

/-! ### MediaWiki.opensearch (head of the operation, for validation) -/

/-- The request parameters of opensearch that vary with the call. -/
structure OSParams where
  search : String
  limit : Nat
  redirects : String

/-- An opensearch response: optional error info and the parallel title,
summary and url arrays. -/
structure OSResponse where
  errInfo : Option String
  names : List String
  summaries : List String
  urls : List String

/-- MediaWiki.opensearch: validates the query, issues the single bounded
request, checks the error response, and zips the three parallel arrays into
(title, summary, url) triples (an out-of-range index is an IndexError). -/
def opensearch (api : OSParams → OSResponse) (query : String)
    (results : Option Nat) (redirect : Bool) :
    Except Raised (List (String × String × String)) :=
  match check_query (some query) "Query must be specified" with
  | some e => .error e
  | none =>
    let limit := match results with | some r => min r 500 | none => 500
    let resp := api { search := query, limit := limit,
                      redirects := if redirect then "resolve" else "return" }
    match check_error_response resp.errInfo query with
    | some e => .error e
    | none =>
      resp.names.enum.mapM (fun p =>
        match resp.summaries.get? p.1, resp.urls.get? p.1 with
        | some s, some u => .ok (p.2, s, u)
        | _, _ => .error (.valueError "IndexError"))

/-! ### Client state and the configuration setters -/

/-- The slice of MediaWiki instance state the configuration claims read and
write.  α is the type of cached values. -/
structure Client (α : Type) where
  api_url : String
  lang : String
  is_logged_in : Bool
  rate_limit : Bool
  rate_limit_last_call : Option Nat
  min_wait : Nat
  supported_languages : Option (List String)
  available_languages : Option (List String)
  cache : MemoCache α

/-- MediaWiki.clear_memoized: empties the whole cache. -/
def clear_memoized {α : Type} (c : Client α) : Client α :=
  { c with cache := memoEmpty }

/-- The rate_limit property setter: stores the flag, unsets the last-call
timestamp, and clears the memoize cache, unconditionally. -/
def set_rate_limit {α : Type} (c : Client α) (v : Bool) : Client α :=
  clear_memoized { c with rate_limit := v, rate_limit_last_call := none }

/-- The language property setter: lowercases, returns unchanged when equal to
the current language, otherwise rewrites the language piece of the API URL,
stores the language and clears the memoize cache. -/
def set_language {α : Type} (c : Client α) (lang : String) : Client α :=
  let l := strLower lang
  if c.lang = l then c
  else
    clear_memoized
      { c with api_url := c.api_url.replace ("/" ++ c.lang ++ ".") ("/" ++ l ++ "."),
               lang := l }

/-- The url.format(lang=...) template substitution of the API URL. -/
def formatUrl (template lang : String) : String :=
  template.replace "{lang}" lang

/-- Modelled from the spec: the exception class hierarchy (exceptions.py is
not among the source files), under which a failure of site-info resolution or
of the login performed during an endpoint switch is caught by the
except clause of set_api_url.  The oracle returns true when validation of the
formatted URL and language succeeds. -/
def SiteValidator : Type := String → String → Bool

/-- MediaWiki.set_api_url: stores the lowercased language and the formatted
URL, drops the login flag, then validates.  On success the lazily resolved
language maps are reset and the cache cleared; on failure the API URL and
language are restored to their prior values and MediaWikiAPIURLError carrying
the attempted (unformatted) URL is raised. -/
def set_api_url {α : Type} (c : Client α) (api_url lang : String)
    (siteOk : SiteValidator) : Client α × Option Raised :=
  let old_api_url := c.api_url
  let old_lang := c.lang
  let l := strLower lang
  let c1 := { c with lang := l, api_url := formatUrl api_url l, is_logged_in := false }
  if siteOk c1.api_url c1.lang then
    (clear_memoized { c1 with supported_languages := none, available_languages := none },
     none)
  else
    ({ c1 with api_url := old_api_url, lang := old_lang }, some (.apiUrlError api_url))

/-! ### Observation helpers and concrete instances used by witnesses -/

/-- The tree-state invariant of one categorytree run: the resolved-categories
mapping and the member-links mapping hold exactly the same categories (the
code fills both together on a successful fetch). -/
def StOk (st : TState) : Prop :=
  ∀ c, (lookupA st.categories c).isSome = (lookupA st.links c).isSome

/-- Observation: the node a finished categorytree result records for a
top-level category (none when the run failed or recorded a placeholder). -/
def treeRootNode (r : Except Raised (Option (List (String × Option CatNode) × TState)))
    (root : String) : Option CatNode :=
  match r with
  | .ok (some (m, _)) =>
    match lookupA m root with
    | some (some n) => some n
    | _ => none
  | _ => none

/-- Observation: the categories a finished categorytree run fetched (the keys
of its run-local resolved-categories mapping). -/
def treeFetchedCats
    (r : Except Raised (Option (List (String × Option CatNode) × TState))) : List String :=
  match r with
  | .ok (some (_, st)) => keysOf st.categories
  | _ => []

/-- A concrete category graph: A has page P1 and subcategory B; B has page P2
and subcategory C; every other category is empty. -/
def fetch0 : String → List String × (List String × List String) :=
  fun c =>
    if c = "A" then ([], (["P1"], ["B"]))
    else if c = "B" then ([], (["P2"], ["C"]))
    else ([], ([], []))

/-- A fetch oracle whose categories are all empty. -/
def fetchEmpty : String → List String × (List String × List String) :=
  fun _ => ([], ([], []))

/-- A concrete client state with a nonempty memoize cache and a recorded
rate-limit call. -/
def clientW : Client Nat :=
  { api_url := "https://en.wikipedia.org/w/api.php", lang := "en", is_logged_in := true,
    rate_limit := false, rate_limit_last_call := some 5, min_wait := 50,
    supported_languages := some ["en"], available_languages := some ["en"],
    cache := ⟨[("search", [("k", (0, 1))])], [("search", [("results", "10")])]⟩ }

/-- A categorymembers api oracle returning nothing (used to show validation
fires for every oracle). -/
def cmApiEmpty : Nat → Option Nat → CMResponse Nat :=
  fun _ _ => { members := [], contTok := none, errInfo := none }

/-- A categorymembers api oracle that always answers with the same
continuation token. -/
def cmApiStuck : Nat → Option Nat → CMResponse Nat :=
  fun _ _ => { members := [("page", "t")], contTok := some 7, errInfo := none }

/-- An opensearch oracle returning an empty result. -/
def osApiEmpty : OSParams → OSResponse :=
  fun _ => { errInfo := none, names := [], summaries := [], urls := [] }

/-- A site validator that rejects every endpoint. -/
def siteNever : SiteValidator := fun _ _ => false

/-- A retry oracle: every attempt raises a PageError. -/
def fetchAtNotFound : Nat → FetchOutcome Nat := fun _ => .notFound

/-- A retry oracle: every attempt raises a KeyboardInterrupt. -/
def fetchAtInterrupt : Nat → FetchOutcome Nat := fun _ => .interrupt

/-- A retry oracle: every attempt raises a generic exception. -/
def fetchAtFailure : Nat → FetchOutcome Nat := fun _ => .failure

/-- A retry oracle: three generic failures, then success with 42. -/
def fetchAtThird : Nat → FetchOutcome Nat :=
  fun i => if i < 3 then .failure else .success 42

/-! ## Helper lemmas -/

theorem lookupA_upsert_self {β : Type} (l : List (String × β)) (k : String) (v : β) :
    lookupA (upsert l k v) k = some v := by
  induction l with
  | nil => simp [upsert, lookupA]
  | cons p t ih =>
    by_cases h : p.1 = k
    · simp [upsert, h, lookupA]
    · simp [upsert, h, lookupA, ih]

theorem lookupA_upsert_ne {β : Type} (l : List (String × β)) (k q : String) (v : β)
    (h : k ≠ q) : lookupA (upsert l k v) q = lookupA l q := by
  induction l with
  | nil => simp [upsert, lookupA, h]
  | cons p t ih =>
    by_cases h0 : p.1 = k
    · have h1 : p.1 ≠ q := by rw [h0]; exact h
      simp [upsert, h0, lookupA, h, h1]
    · simp [upsert, h0, lookupA, ih]

theorem mem_upsert {β : Type} (l : List (String × β)) (k : String) (v : β)
    (p : String × β) (hp : p ∈ upsert l k v) : p = (k, v) ∨ p ∈ l := by
  induction l with
  | nil => simpa [upsert] using hp
  | cons q t ih =>
    by_cases h0 : q.1 = k
    · simp [upsert, h0] at hp
      rcases hp with h | h
      · exact Or.inl (by simp [h])
      · exact Or.inr (List.mem_cons_of_mem _ h)
    · simp [upsert, h0] at hp
      rcases hp with h | h
      · exact Or.inr (by simp [h])
      · rcases ih h with h1 | h1
        · exact Or.inl h1
        · exact Or.inr (List.mem_cons_of_mem _ h1)

theorem keysOf_upsert_self {β : Type} (l : List (String × β)) (k : String) (v : β) :
    k ∈ keysOf (upsert l k v) := by
  induction l with
  | nil => simp [upsert, keysOf]
  | cons p t ih =>
    by_cases h0 : p.1 = k
    · simp [upsert, h0, keysOf]
    · simpa [upsert, h0, keysOf] using Or.inr (by simpa [keysOf] using ih)

theorem keysOf_upsert_mono {β : Type} (l : List (String × β)) (k a : String) (v : β)
    (ha : a ∈ keysOf l) : a ∈ keysOf (upsert l k v) := by
  induction l with
  | nil => simp [keysOf] at ha
  | cons p t ih =>
    by_cases h0 : p.1 = k
    · simp [keysOf] at ha
      rcases ha with h | h
      · simp [upsert, h0, keysOf]
        exact Or.inl (h.trans h0)
      · simp [upsert, h0, keysOf]
        exact Or.inr h
    · simp [keysOf] at ha
      rcases ha with h | h
      · simp [upsert, h0, keysOf]
        exact Or.inl h
      · simp [upsert, h0, keysOf]
        exact Or.inr (by simpa [keysOf] using ih (by simpa [keysOf] using h))

theorem mem_keysOf_iff {β : Type} (l : List (String × β)) (a : String) :
    a ∈ keysOf l ↔ (lookupA l a).isSome = true := by
  induction l with
  | nil => simp [keysOf, lookupA]
  | cons p t ih =>
    by_cases h0 : p.1 = a
    · simp [keysOf, lookupA, h0]
    · rw [show keysOf (p :: t) = p.1 :: keysOf t from rfl, List.mem_cons,
        show lookupA (p :: t) a = lookupA t a by simp [lookupA, h0], ← ih]
      simp [Ne.symm h0]

/-! ## C2: memoization -/

/-- C2: with use_cache true and refresh_interval unset, two successive calls
through the memoize wrapper with the same operation and arguments invoke the
wrapped function exactly once — the first call computes, the second returns
the stored value; with use_cache false, every call invokes the wrapped
function. -/
theorem memoize_single_compute {α : Type} (t1 t2 : Nat) (fname : String)
    (fdefaults : List (String × String)) (posArgs : List String)
    (kwargs : List (String × String)) (compute : Unit → α) :
    (memoizeCall true none t1 fname fdefaults posArgs kwargs compute memoEmpty).2.2 = 1 ∧
    (memoizeCall true none t2 fname fdefaults posArgs kwargs compute
        (memoizeCall true none t1 fname fdefaults posArgs kwargs compute memoEmpty).2.1).2.2
      = 0 ∧
    (memoizeCall true none t2 fname fdefaults posArgs kwargs compute
        (memoizeCall true none t1 fname fdefaults posArgs kwargs compute memoEmpty).2.1).1
      = (memoizeCall true none t1 fname fdefaults posArgs kwargs compute memoEmpty).1 ∧
    (∀ (r : Option Nat) (t : Nat) (c : MemoCache α),
      (memoizeCall false r t fname fdefaults posArgs kwargs compute c).2.2 = 1) := by
  refine ⟨?_, ?_, ?_, ?_⟩ <;>
    simp [memoizeCall, memoEmpty, lookupA, upsert, lookupA_upsert_self]

/-! ## C6: API error mapping -/

/-- C6: an API error whose info is a known timeout or pool-exhaustion phrase
raises the HTTP-timeout error carrying the query; a known geocoordinate
phrase raises the geocoordinate error carrying the phrase; any other info
raises the generic API error carrying the message; a response without an
error object raises nothing. -/
theorem error_response_mapping (q : String) :
    check_error_response none q = none ∧
    (∀ e ∈ httpErrorInfos, check_error_response (some e) q = some (.httpTimeout q)) ∧
    (∀ e ∈ geoErrorInfos, check_error_response (some e) q = some (.geoCoord e)) ∧
    (∀ e, e ∉ httpErrorInfos → e ∉ geoErrorInfos →
      check_error_response (some e) q = some (.apiError e)) := by
  refine ⟨rfl, ?_, ?_, ?_⟩
  · intro e he
    fin_cases he <;> simp [check_error_response, httpErrorInfos, geoErrorInfos]
  · intro e he
    fin_cases he <;> simp [check_error_response, httpErrorInfos, geoErrorInfos]
  · intro e h1 h2
    simp [check_error_response, h1, h2]

/-- C6 witness at the phrases named by the claim and one other message. -/
theorem error_response_mapping_witness :
    check_error_response (some "Page coordinates unknown.") "Q"
      = some (.geoCoord "Page coordinates unknown.") ∧
    check_error_response (some "HTTP request timed out.") "Q"
      = some (.httpTimeout "Q") ∧
    check_error_response (some "boom") "Q" = some (.apiError "boom") ∧
    check_error_response none "Q" = none := by
  refine ⟨?_, ?_, ?_, ?_⟩
  · exact (error_response_mapping "Q").2.2.1 _ (by simp [geoErrorInfos])
  · exact (error_response_mapping "Q").2.1 _ (by simp [httpErrorInfos])
  · exact (error_response_mapping "Q").2.2.2 _ (by simp [httpErrorInfos])
      (by simp [geoErrorInfos])
  · exact (error_response_mapping "Q").1

/-! ## C9: rate_limit setter side effects -/

/-- C9: setting the rate_limit flag — to any value, including the current one
— unsets the last-call timestamp and empties the entire memoize cache (every
operation partition and the defaults partition), while only the flag among
the remaining fields changes. -/
theorem rate_limit_setter_effects {α : Type} (c : Client α) (v : Bool) :
    (set_rate_limit c v).rate_limit = v ∧
    (set_rate_limit c v).rate_limit_last_call = none ∧
    (set_rate_limit c v).cache = memoEmpty ∧
    (∀ f k, lookupA ((lookupA (set_rate_limit c v).cache.funcs f).getD []) k = none) ∧
    (set_rate_limit c c.rate_limit).cache = memoEmpty ∧
    (set_rate_limit c v).api_url = c.api_url ∧
    (set_rate_limit c v).lang = c.lang ∧
    (set_rate_limit c v).min_wait = c.min_wait := by
  refine ⟨rfl, rfl, rfl, ?_, rfl, rfl, rfl, rfl⟩
  intro f k
  simp [set_rate_limit, clear_memoized, memoEmpty, lookupA]

/-! ## C10: language setter frame -/

/-- C10: setting the language to a value whose lowercase form equals the
current language leaves the client completely unchanged (URL and cache
included); when the lowercase form differs, the URL has the language piece
rewritten, the language is stored, and the memoize cache is emptied. -/
theorem language_setter_frame {α : Type} (c : Client α) (lang : String) :
    (c.lang = strLower lang → set_language c lang = c) ∧
    (c.lang ≠ strLower lang →
      (set_language c lang).lang = strLower lang ∧
      (set_language c lang).api_url
        = c.api_url.replace ("/" ++ c.lang ++ ".") ("/" ++ strLower lang ++ ".") ∧
      (set_language c lang).cache = memoEmpty ∧
      (set_language c lang).rate_limit = c.rate_limit ∧
      (set_language c lang).is_logged_in = c.is_logged_in) := by
  constructor
  · intro h
    simp [set_language, h]
  · intro h
    simp [set_language, h, clear_memoized, memoEmpty]

/-- C10 witness: "EN" lowercases to the current language and is a no-op on
the concrete client; "fr" differs, rewrites the URL and clears the cache. -/
theorem language_setter_frame_witness :
    set_language clientW "EN" = clientW ∧
    ((set_language clientW "fr").lang = strLower "fr" ∧
      (set_language clientW "fr").api_url
        = clientW.api_url.replace ("/" ++ clientW.lang ++ ".") ("/" ++ strLower "fr" ++ ".") ∧
      (set_language clientW "fr").cache = memoEmpty ∧
      (set_language clientW "fr").rate_limit = clientW.rate_limit ∧
      (set_language clientW "fr").is_logged_in = clientW.is_logged_in) := by
  constructor
  · exact (language_setter_frame clientW "EN").1 (by decide)
  · exact (language_setter_frame clientW "fr").2 (by decide)

/-! ## C7: set_api_url rollback -/

/-- C7: when validation of the new endpoint fails, set_api_url restores the
API URL and the language to their values from before the call and raises the
invalid-API-endpoint error carrying the attempted (unformatted) URL. -/
theorem set_api_url_rollback {α : Type} (c : Client α) (url lang : String)
    (siteOk : SiteValidator)
    (h : siteOk (formatUrl url (strLower lang)) (strLower lang) = false) :
    (set_api_url c url lang siteOk).1.api_url = c.api_url ∧
    (set_api_url c url lang siteOk).1.lang = c.lang ∧
    (set_api_url c url lang siteOk).2 = some (.apiUrlError url) := by
  simp [set_api_url, h]

/-- C7 witness on a validator that rejects every endpoint. -/
theorem set_api_url_rollback_witness :
    (set_api_url clientW "https://{lang}.test/w/api.php" "FR" siteNever).1.api_url
      = clientW.api_url ∧
    (set_api_url clientW "https://{lang}.test/w/api.php" "FR" siteNever).1.lang
      = clientW.lang ∧
    (set_api_url clientW "https://{lang}.test/w/api.php" "FR" siteNever).2
      = some (.apiUrlError "https://{lang}.test/w/api.php") :=
  set_api_url_rollback clientW "https://{lang}.test/w/api.php" "FR" siteNever rfl

/-! ## C8: synchronous validation -/

/-- C8: validation fires before any network traffic — categorytree rejects a
blank single category name and any depth below 1 for every fetch oracle and
fuel, and categorymembers and opensearch reject a blank query for every api
oracle. -/
theorem validation_before_network :
    (∀ (fetch : String → List String × (List String × List String)) (fuel : Nat)
        (depth : Option Int), ∃ msg, categorytree fetch fuel (.one "") depth
          = .error (.valueError msg)) ∧
    (∀ (fetch : String → List String × (List String × List String)) (fuel : Nat)
        (cat : String), cat ≠ "" → ∀ d : Int, d < 1 →
        categorytree fetch fuel (.one cat) (some d)
          = .error (.valueError
              "CategoryTree: Parameter depth must be either None (for the full tree) or be greater than 0")) ∧
    (∀ (api : Nat → Option Nat → CMResponse Nat) (cp : String) (results : Option Nat)
        (fuel : Nat), categorymembers api cp "" results fuel
          = some (.raised (.valueError "Category must be specified"))) ∧
    (∀ (api : OSParams → OSResponse) (results : Option Nat) (redirect : Bool),
        opensearch api "" results redirect
          = .error (.valueError "Query must be specified")) := by
  refine ⟨?_, ?_, ?_, ?_⟩
  · intro fetch fuel depth
    exact ⟨_, rfl⟩
  · intro fetch fuel cat hcat d hd
    simp [categorytree, hcat, depthInvalid, hd]
  · intro api cp results fuel
    rfl
  · intro api results redirect
    rfl

/-- C8 witness at the concrete inputs the claim names. -/
theorem validation_before_network_witness :
    (∃ msg, categorytree fetchEmpty 4 (.one "") (some 5) = .error (.valueError msg)) ∧
    categorytree fetchEmpty 4 (.one "A") (some 0)
      = .error (.valueError
          "CategoryTree: Parameter depth must be either None (for the full tree) or be greater than 0") ∧
    categorymembers cmApiEmpty "Category" "" (some 10) 3
      = some (.raised (.valueError "Category must be specified")) ∧
    opensearch osApiEmpty "" (some 10) true
      = .error (.valueError "Query must be specified") :=
  ⟨validation_before_network.1 fetchEmpty 4 (some 5),
   validation_before_network.2.1 fetchEmpty 4 "A" (by decide) 0 (by decide),
   validation_before_network.2.2.1 cmApiEmpty "Category" (some 10) 3,
   validation_before_network.2.2.2 osApiEmpty (some 10) true⟩

/-! ## C5: category-tree retry classification -/

theorem catFetchRetry_all_failures {α : Type} (fetchAt : Nat → FetchOutcome α)
    (cp cat : String) (hf : ∀ i, i ≤ 10 → fetchAt i = .failure) :
    ∀ (n t s : Nat), t + n = 11 →
      catFetchRetry fetchAt cp cat t s = .raised (.catTreeError cat) (s + n) := by
  intro n
  induction n with
  | zero =>
    intro t s ht
    have h11 : t = 11 := by omega
    subst h11
    rw [catFetchRetry, if_pos (by omega)]
    simp
  | succ m ih =>
    intro t s ht
    rw [catFetchRetry, if_neg (by omega), hf t (by omega)]
    have h2 := ih (t + 1) (s + 1) (by omega)
    have heq : s + 1 + m = s + (m + 1) := by omega
    rw [h2, heq]

theorem catFetchRetry_succeeds {α : Type} (fetchAt : Nat → FetchOutcome α)
    (cp cat : String) (k : Nat) (v : α) (hk : k ≤ 10)
    (hf : ∀ i, i < k → fetchAt i = .failure) (hs : fetchAt k = .success v) :
    ∀ (n t s : Nat), t + n = k → catFetchRetry fetchAt cp cat t s = .ok v (s + n) := by
  intro n
  induction n with
  | zero =>
    intro t s ht
    have hkk : t = k := by omega
    subst hkk
    rw [catFetchRetry, if_neg (by omega), hs]
    simp
  | succ m ih =>
    intro t s ht
    rw [catFetchRetry, if_neg (by omega), hf t (by omega)]
    have h2 := ih (t + 1) (s + 1) (by omega)
    have heq : s + 1 + m = s + (m + 1) := by omega
    rw [h2, heq]

/-- C5: inside the category-tree retry loop, a PageError propagates
immediately (no sleep, no retry) as a page-not-found error carrying
prefix:category; a KeyboardInterrupt propagates immediately; any other
exception sleeps one unit per attempt and refetches; after more than 10
failed attempts (the eleventh failure) the category-tree error carrying the
category name is raised; a success after k early failures returns the value
with exactly k sleeps. -/
theorem cat_tree_retry_classification {α : Type} (cp cat : String) :
    (∀ (fetchAt : Nat → FetchOutcome α) (t s : Nat), t ≤ 10 → fetchAt t = .notFound →
      catFetchRetry fetchAt cp cat t s = .raised (.pageNotFound (cp ++ ":" ++ cat)) s) ∧
    (∀ (fetchAt : Nat → FetchOutcome α) (t s : Nat), t ≤ 10 → fetchAt t = .interrupt →
      catFetchRetry fetchAt cp cat t s = .raised .interrupted s) ∧
    (∀ (fetchAt : Nat → FetchOutcome α), (∀ i, i ≤ 10 → fetchAt i = .failure) →
      catFetchRetry fetchAt cp cat 0 0 = .raised (.catTreeError cat) 11) ∧
    (∀ (fetchAt : Nat → FetchOutcome α) (k : Nat) (v : α), k ≤ 10 →
      (∀ i, i < k → fetchAt i = .failure) → fetchAt k = .success v →
      catFetchRetry fetchAt cp cat 0 0 = .ok v k) := by
  refine ⟨?_, ?_, ?_, ?_⟩
  · intro fetchAt t s ht hnf
    rw [catFetchRetry, if_neg (by omega), hnf]
  · intro fetchAt t s ht hint
    rw [catFetchRetry, if_neg (by omega), hint]
  · intro fetchAt hf
    have := catFetchRetry_all_failures fetchAt cp cat hf 11 0 0 (by omega)
    simpa using this
  · intro fetchAt k v hk hf hs
    have := catFetchRetry_succeeds fetchAt cp cat k v hk hf hs k 0 0 (by omega)
    simpa using this

/-- C5 witness over the four concrete retry oracles. -/
theorem cat_tree_retry_classification_witness :
    catFetchRetry fetchAtNotFound "Category" "A" 0 0
      = .raised (.pageNotFound ("Category" ++ ":" ++ "A")) 0 ∧
    catFetchRetry fetchAtInterrupt "Category" "A" 0 0 = .raised .interrupted 0 ∧
    catFetchRetry fetchAtFailure "Category" "A" 0 0 = .raised (.catTreeError "A") 11 ∧
    catFetchRetry fetchAtThird "Category" "A" 0 0 = .ok 42 3 :=
  ⟨(cat_tree_retry_classification "Category" "A").1 fetchAtNotFound 0 0 (by omega) rfl,
   (cat_tree_retry_classification "Category" "A").2.1 fetchAtInterrupt 0 0 (by omega) rfl,
   (cat_tree_retry_classification "Category" "A").2.2.1 fetchAtFailure (fun i _ => rfl),
   (cat_tree_retry_classification "Category" "A").2.2.2 fetchAtThird 3 42 (by omega)
     (fun i hi => by simp [fetchAtThird, hi]) (by simp [fetchAtThird])⟩

/-! ## C3: pagination termination conditions -/

/-- C3: the categorymembers loop terminates at any iteration whose response
omits a continuation token, or repeats the previous iteration's token, or
brings the accumulated count up to the requested target — in each case the
result no longer depends on the remaining fuel, so no further iteration runs.
-/
theorem cmLoop_termination_conditions {τ : Type} [DecidableEq τ]
    (api : Nat → Option τ → CMResponse τ) (category cp : String)
    (results : Option Nat) (maxPull cmlimit : Nat) (lastCont : Option τ)
    (pages subcats : List String) (rr : Nat)
    (h : (api cmlimit lastCont).contTok = none ∨
         (api cmlimit lastCont).contTok = lastCont ∨
         (∃ r, results = some r ∧ r ≤ rr + (api cmlimit lastCont).members.length)) :
    ∃ v, ∀ fuel, cmLoop api category cp results maxPull (fuel + 1) cmlimit lastCont
        pages subcats rr = some v := by
  obtain ⟨raw, hraw⟩ : ∃ raw, api cmlimit lastCont = raw := ⟨_, rfl⟩
  rw [hraw] at h
  refine ⟨(match check_error_response raw.errInfo category with
    | some e => .raised e
    | none => .ok (collectMembers cp raw.members pages subcats).1
        (collectMembers cp raw.members pages subcats).2), fun fuel => ?_⟩
  simp only [cmLoop]
  rw [hraw]
  cases herr : check_error_response raw.errInfo category with
  | some e => simp [herr]
  | none =>
    simp only [herr]
    rcases h with h | h | h
    · simp [h]
    · cases hlc : lastCont with
      | none => simp [h, hlc]
      | some c => simp [h, hlc]
    · obtain ⟨r, hr, hle⟩ := h
      subst hr
      have hz : ¬ (rr + raw.members.length < r) := by omega
      cases hct : raw.contTok with
      | none => simp [hct]
      | some c =>
        by_cases hrep : lastCont = some c
        · simp [hct, hrep]
        · simp [hct, hrep, hz]

/-- C3 witness: an api that always answers with the same continuation token
is stopped by the non-progress guard at the iteration holding that token,
whatever fuel remains. -/
theorem cmLoop_termination_witness :
    ∃ v, ∀ fuel, cmLoop cmApiStuck "C" "Category" none 500 (fuel + 1) 500 (some 7)
        [] [] 0 = some v :=
  cmLoop_termination_conditions cmApiStuck "C" "Category" none 500 500 (some 7)
    [] [] 0 (Or.inr (Or.inl rfl))

/-! ## C4: pagination bound over an honest source -/

theorem collect_pages (cp : String) :
    ∀ (batch pages subcats : List String),
      collectMembers cp (batch.map (fun t => ("page", t))) pages subcats
        = (pages ++ batch, subcats) := by
  intro batch
  induction batch with
  | nil => intro pages subcats; simp [collectMembers]
  | cons t rest ih =>
    intro pages subcats
    simp [collectMembers, ih]

theorem cmLoop_honest (src : List String) (category cp : String) (N : Nat)
    (hlen : N ≤ src.length) :
    ∀ (fuel o : Nat) (lastCont : Option Nat) (pages subcats : List String),
      o < N → N - o ≤ fuel → lastCont.getD 0 = o → (∀ x, lastCont = some x → x ≤ o) →
      cmLoop (honestApi src) category cp (some N) 500 fuel (min (N - o) 500) lastCont
          pages subcats o
        = some (.ok (pages ++ (src.drop o).take (N - o)) subcats) := by
  intro fuel
  induction fuel with
  | zero =>
    intro o lastCont pages subcats ho hf _ _
    omega
  | succ f ih =>
    intro o lastCont pages subcats ho hf hoff hne
    set L := min (N - o) 500 with hL
    have hlim1 : 1 ≤ L := by omega
    have hlimle : L ≤ N - o := by omega
    have hbatchlen : ((src.drop o).take L).length = L := by
      rw [List.length_take, List.length_drop]
      omega
    by_cases hc : o + L < src.length
    · have hresp : honestApi src L lastCont
          = ⟨((src.drop o).take L).map (fun t => ("page", t)), some (o + L), none⟩ := by
        simp [honestApi, hoff, hc]
      have hner : ¬ (lastCont = some (o + L)) := by
        intro hx
        have := hne _ hx
        omega
      simp only [cmLoop]
      rw [hresp]
      simp only [check_error_response, collect_pages, List.length_map, hbatchlen]
      rw [if_neg hner]
      by_cases hfin : o + L < N
      · rw [if_pos (show decide (0 < N - (o + L)) = true by
          simp only [decide_eq_true_eq]; omega)]
        rw [show (if N - (o + L) < 500 then N - (o + L) else L) = min (N - (o + L)) 500
          from by split_ifs <;> omega]
        rw [ih (o + L) (some (o + L)) (pages ++ (src.drop o).take L) subcats
          (by omega) (by omega) rfl (by intro x hx; simp at hx; omega)]
        have hNo : N - (o + L) = N - o - L := by omega
        have hsplit : (src.drop o).take (N - o)
            = (src.drop o).take L ++ (src.drop (o + L)).take (N - o - L) := by
          calc (src.drop o).take (N - o)
              = (src.drop o).take (L + (N - o - L)) := by
                rw [show L + (N - o - L) = N - o from by omega]
            _ = (src.drop o).take L ++ ((src.drop o).drop L).take (N - o - L) :=
                List.take_add _ _ _
            _ = (src.drop o).take L ++ (src.drop (o + L)).take (N - o - L) := by
                rw [List.drop_drop]
        rw [hNo, hsplit, List.append_assoc]
      · rw [if_neg (show ¬ (decide (0 < N - (o + L)) = true) by
          simp only [decide_eq_true_eq]; omega)]
        rw [show L = N - o from by omega]
    · have hresp : honestApi src L lastCont
          = ⟨((src.drop o).take L).map (fun t => ("page", t)), none, none⟩ := by
        simp [honestApi, hoff, hc]
      simp only [cmLoop]
      rw [hresp]
      simp only [check_error_response, collect_pages, List.length_map, hbatchlen]
      rw [show L = N - o from by omega]

/-- C4: requesting results = N from an honest source holding at least N
members returns exactly the first N members in the order the API provided
them — the per-page limit adjustment on the final iteration keeps the total
at N. -/
theorem categorymembers_bound (src : List String) (category cp : String) (N : Nat)
    (hN : 1 ≤ N) (hlen : N ≤ src.length) (hcat : strStrip category ≠ "") :
    categorymembers (honestApi src) cp category (some N) N
      = some (.ok (src.take N) []) := by
  have h := cmLoop_honest src category cp N hlen N 0 none [] []
    (by omega) (by omega) rfl (by intro x hx; cases hx)
  simp only [Nat.sub_zero, List.drop_zero, List.nil_append] at h
  simp [categorymembers, check_query, hcat]
  exact h

/-- C4 witness: an honest five-member source, three requested, exactly the
first three returned in order. -/
theorem categorymembers_bound_witness :
    categorymembers (honestApi ["a", "b", "c", "d", "e"]) "Category" "Fruit" (some 3) 3
      = some (.ok (["a", "b", "c", "d", "e"].take 3) []) :=
  categorymembers_bound ["a", "b", "c", "d", "e"] "Fruit" "Category" 3
    (by omega) (by simp) (by decide)

/-! ## C1: category-tree depth behaviour -/

theorem upsertNone_values (subs : List String) :
    ∀ (acc : List (String × Option CatNode)), (∀ p ∈ acc, p.2 = none) →
      ∀ p ∈ subs.foldl (fun m s => upsert m s none) acc, p.2 = none := by
  induction subs with
  | nil => intro acc ha p hp; exact ha p hp
  | cons s rest ih =>
    intro acc ha p hp
    rw [List.foldl_cons] at hp
    refine ih (upsert acc s none) ?_ p hp
    intro q hq
    rcases mem_upsert _ _ _ _ hq with h | h
    · simp [h]
    · exact ha q h

theorem catResolve_spec (fetch : String → List String × (List String × List String))
    (cat : String) (st : TState) (hst : StOk st) :
    StOk (catResolve fetch cat st).2 ∧
    cat ∈ keysOf (catResolve fetch cat st).2.categories ∧
    (∃ pl, lookupA (catResolve fetch cat st).2.links cat = some pl) ∧
    (∀ a, a ∈ keysOf st.categories → a ∈ keysOf (catResolve fetch cat st).2.categories) := by
  unfold catResolve
  cases hlc : lookupA st.categories cat with
  | some pcs =>
    simp only [hlc]
    refine ⟨hst, ?_, ?_, fun a ha => ha⟩
    · rw [mem_keysOf_iff, hlc]
      rfl
    · have h1 : (lookupA st.links cat).isSome = true := by
        rw [← hst, hlc]
        rfl
      exact Option.isSome_iff_exists.mp h1
  | none =>
    simp only [hlc]
    refine ⟨?_, keysOf_upsert_self _ _ _, ⟨(fetch cat).2, lookupA_upsert_self _ _ _⟩,
      fun a ha => keysOf_upsert_mono _ _ _ _ ha⟩
    intro c
    by_cases hcc : c = cat
    · subst hcc
      rw [lookupA_upsert_self, lookupA_upsert_self]
      rfl
    · rw [lookupA_upsert_ne _ _ _ _ (fun h => hcc h.symm),
        lookupA_upsert_ne _ _ _ _ (fun h => hcc h.symm)]
      exact hst c

theorem catTreeRec_reached (fetch : String → List String × (List String × List String))
    (d : Option Int) (cat : String) (lvl : Nat) (g : Nat)
    (hd : depthReached d lvl = true) (st : TState) (hst : StOk st) :
    ∃ node st2, catTreeRec fetch (g + 1) d cat lvl st = some (node, st2) ∧
      node.depth = lvl ∧ (∀ p ∈ node.subcats, p.2 = none) ∧ StOk st2 ∧
      cat ∈ keysOf st2.categories ∧
      (∀ a, a ∈ keysOf st.categories → a ∈ keysOf st2.categories) := by
  obtain ⟨hst1, hmem, ⟨pl, hpl⟩, hmono⟩ := catResolve_spec fetch cat st hst
  refine ⟨⟨lvl, pl.1, (catResolve fetch cat st).1,
      pl.2.foldl (fun m s => upsert m s none) []⟩,
    (catResolve fetch cat st).2, ?_, rfl, ?_, hst1, hmem, hmono⟩
  · simp [catTreeRec, hpl, hd]
  · intro p hp
    exact upsertNone_values _ _ (by simp) p hp

theorem catTreeListGo_all (recf : String → Nat → TState → Option (CatNode × TState))
    (lvl : Nat) (P : CatNode → Prop)
    (hrec : ∀ c st, StOk st → ∃ node st2, recf c lvl st = some (node, st2) ∧ P node ∧
        StOk st2 ∧ c ∈ keysOf st2.categories ∧
        (∀ a, a ∈ keysOf st.categories → a ∈ keysOf st2.categories)) :
    ∀ (subs : List String) (acc : List (String × Option CatNode)) (st : TState),
      StOk st →
      (∀ p ∈ acc, (∃ n, p.2 = some n ∧ P n) ∧ p.1 ∈ keysOf st.categories) →
      ∃ m st2, catTreeListGo recf subs lvl acc st = some (m, st2) ∧ StOk st2 ∧
        (∀ p ∈ m, (∃ n, p.2 = some n ∧ P n) ∧ p.1 ∈ keysOf st2.categories) ∧
        (∀ a, a ∈ keysOf st.categories → a ∈ keysOf st2.categories) := by
  intro subs
  induction subs with
  | nil =>
    intro acc st hst hacc
    exact ⟨acc, st, rfl, hst, hacc, fun a ha => ha⟩
  | cons c rest ih =>
    intro acc st hst hacc
    obtain ⟨node, st2, heq, hP, hst2, hcmem, hmono⟩ := hrec c st hst
    have hacc2 : ∀ p ∈ upsert acc c (some node),
        (∃ n, p.2 = some n ∧ P n) ∧ p.1 ∈ keysOf st2.categories := by
      intro p hp
      rcases mem_upsert _ _ _ _ hp with h | h
      · refine ⟨⟨node, by rw [h], hP⟩, ?_⟩
        rw [h]
        exact hcmem
      · obtain ⟨h1, h2⟩ := hacc p h
        exact ⟨h1, hmono _ h2⟩
    obtain ⟨m, st3, heq2, hst3, hm, hmono2⟩ := ih (upsert acc c (some node)) st2 hst2 hacc2
    refine ⟨m, st3, ?_, hst3, hm, fun a ha => hmono2 a (hmono a ha)⟩
    simp only [catTreeListGo, heq]
    exact heq2

theorem catTreeRec_below (fetch : String → List String × (List String × List String))
    (d : Option Int) (lvl : Nat) (g : Nat) (hd : depthReached d lvl = false)
    (P : CatNode → Prop)
    (hchild : ∀ c st, StOk st → ∃ node st2,
        catTreeRec fetch g d c (lvl + 1) st = some (node, st2) ∧ P node ∧ StOk st2 ∧
        c ∈ keysOf st2.categories ∧
        (∀ a, a ∈ keysOf st.categories → a ∈ keysOf st2.categories))
    (cat : String) (st : TState) (hst : StOk st) :
    ∃ node st2, catTreeRec fetch (g + 1) d cat lvl st = some (node, st2) ∧
      node.depth = lvl ∧
      (∀ p ∈ node.subcats, (∃ n, p.2 = some n ∧ P n) ∧ p.1 ∈ keysOf st2.categories) ∧
      StOk st2 ∧ cat ∈ keysOf st2.categories ∧
      (∀ a, a ∈ keysOf st.categories → a ∈ keysOf st2.categories) := by
  obtain ⟨hst1, hmem, ⟨pl, hpl⟩, hmono⟩ := catResolve_spec fetch cat st hst
  obtain ⟨m, st3, heqL, hst3, hm, hmonoL⟩ :=
    catTreeListGo_all (fun c l s => catTreeRec fetch g d c l s) (lvl + 1) P
      hchild pl.2 [] (catResolve fetch cat st).2 hst1 (by simp)
  refine ⟨⟨lvl, pl.1, (catResolve fetch cat st).1, m⟩, st3, ?_, rfl, hm, hst3,
    hmonoL _ hmem, fun a ha => hmonoL a (hmono a ha)⟩
  simp [catTreeRec, hpl, hd, heqL]

/-- C1 counterexample: on the concrete graph fetch0 (A has subcategory B, B
has subcategory C), a tree built with depth = 1 records B — a subcategory of
the root A — as a fully expanded node, not a null placeholder, and B is
fetched (present in the run's resolved-categories mapping), refuting the
claim that with depth = 1 the root's subcategories are unexpanded null
placeholders with no fetch performed for them. -/
theorem catTree_depth1_counterexample :
    ((treeRootNode (categorytree fetch0 6 (.one "A") (some 1)) "A").map
        (fun n => (lookupA n.subcats "B").map (fun x => x.isNone))) = some (some false) ∧
    "B" ∈ treeFetchedCats (categorytree fetch0 6 (.one "A") (some 1)) := by
  decide

/-- C1 amended: with depth = 1 the subcategories of the root are fetched and
expanded exactly one level — each is recorded as a depth-1 node whose own
sub-categories mapping holds only null placeholders, and each appears in the
run's resolved-categories mapping; with depth = 2 exactly one more level is
expanded: the depth-1 nodes carry depth-2 children whose sub-categories are
all null placeholders. -/
theorem catTree_depth_expansion
    (fetch : String → List String × (List String × List String)) (A : String)
    (hA : A ≠ "") (g : Nat) :
    (∃ m st, categorytree fetch (g + 2) (.one A) (some 1) = .ok (some (m, st)) ∧
      ∃ nA, lookupA m A = some (some nA) ∧ nA.depth = 0 ∧
        ∀ p ∈ nA.subcats, ∃ n, p.2 = some n ∧ n.depth = 1 ∧
          (∀ q ∈ n.subcats, q.2 = none) ∧ p.1 ∈ keysOf st.categories) ∧
    (∃ m st, categorytree fetch (g + 3) (.one A) (some 2) = .ok (some (m, st)) ∧
      ∃ nA, lookupA m A = some (some nA) ∧ nA.depth = 0 ∧
        ∀ p ∈ nA.subcats, ∃ n, p.2 = some n ∧ n.depth = 1 ∧ p.1 ∈ keysOf st.categories ∧
          ∀ q ∈ n.subcats, ∃ n2, q.2 = some n2 ∧ n2.depth = 2 ∧
            ∀ s ∈ n2.subcats, s.2 = none) := by
  have hst0 : StOk ⟨[], []⟩ := fun c => rfl
  constructor
  · -- depth = 1
    obtain ⟨nodeA, st2, hroot, hdep, hsub, hst2, hamem, hmono⟩ :=
      catTreeRec_below fetch (some 1) 0 (g + 1) (by decide)
        (fun n => n.depth = 1 ∧ ∀ q ∈ n.subcats, q.2 = none)
        (by
          intro c st hstc
          obtain ⟨node, stx, heq, hdp, hnone, hsx, hcm, hmn⟩ :=
            catTreeRec_reached fetch (some 1) c 1 g (by decide) st hstc
          exact ⟨node, stx, heq, ⟨hdp, hnone⟩, hsx, hcm, hmn⟩)
        A ⟨[], []⟩ hst0
    have hlist : catTreeListGo (fun c lvl s => catTreeRec fetch (g + 2) (some 1) c lvl s)
        [A] 0 [] ⟨[], []⟩ = some ([(A, some nodeA)], st2) := by
      simp [catTreeListGo, hroot, upsert]
    refine ⟨[(A, some nodeA)], st2, ?_, nodeA, by simp [lookupA], hdep, ?_⟩
    · simp [categorytree, hA, depthInvalid, hlist]
    · intro p hp
      obtain ⟨⟨n, hn, hdp, hnone⟩, hkey⟩ := hsub p hp
      exact ⟨n, hn, hdp, hnone, hkey⟩
  · -- depth = 2
    obtain ⟨nodeA, st2, hroot, hdep, hsub, hst2, hamem, hmono⟩ :=
      catTreeRec_below fetch (some 2) 0 (g + 2) (by decide)
        (fun n => n.depth = 1 ∧ ∀ q ∈ n.subcats, ∃ n2, q.2 = some n2 ∧ n2.depth = 2 ∧
          ∀ s ∈ n2.subcats, s.2 = none)
        (by
          intro c st hstc
          obtain ⟨node, stx, heq, hdp, hq, hsx, hcm, hmn⟩ :=
            catTreeRec_below fetch (some 2) 1 (g + 1) (by decide)
              (fun n2 => n2.depth = 2 ∧ ∀ s ∈ n2.subcats, s.2 = none)
              (by
                intro c2 st2b hst2b
                obtain ⟨node2, sty, heq2, hdp2, hnone2, hsy, hcm2, hmn2⟩ :=
                  catTreeRec_reached fetch (some 2) c2 2 g (by decide) st2b hst2b
                exact ⟨node2, sty, heq2, ⟨hdp2, hnone2⟩, hsy, hcm2, hmn2⟩)
              c st hstc
          refine ⟨node, stx, heq, ⟨hdp, ?_⟩, hsx, hcm, hmn⟩
          intro q hqm
          obtain ⟨⟨n2, hn2, hd2, hnone2⟩, _⟩ := hq q hqm
          exact ⟨n2, hn2, hd2, hnone2⟩)
        A ⟨[], []⟩ hst0
    have hlist : catTreeListGo (fun c lvl s => catTreeRec fetch (g + 3) (some 2) c lvl s)
        [A] 0 [] ⟨[], []⟩ = some ([(A, some nodeA)], st2) := by
      simp [catTreeListGo, hroot, upsert]
    refine ⟨[(A, some nodeA)], st2, ?_, nodeA, by simp [lookupA], hdep, ?_⟩
    · simp [categorytree, hA, depthInvalid, hlist]
    · intro p hp
      obtain ⟨⟨n, hn, hdp, hq⟩, hkey⟩ := hsub p hp
      exact ⟨n, hn, hdp, hkey, hq⟩

/-- C1 amended witness at the concrete graph fetch0. -/
theorem catTree_depth_expansion_witness :
    (∃ m st, categorytree fetch0 2 (.one "A") (some 1) = .ok (some (m, st)) ∧
      ∃ nA, lookupA m "A" = some (some nA) ∧ nA.depth = 0 ∧
        ∀ p ∈ nA.subcats, ∃ n, p.2 = some n ∧ n.depth = 1 ∧
          (∀ q ∈ n.subcats, q.2 = none) ∧ p.1 ∈ keysOf st.categories) ∧
    (∃ m st, categorytree fetch0 3 (.one "A") (some 2) = .ok (some (m, st)) ∧
      ∃ nA, lookupA m "A" = some (some nA) ∧ nA.depth = 0 ∧
        ∀ p ∈ nA.subcats, ∃ n, p.2 = some n ∧ n.depth = 1 ∧ p.1 ∈ keysOf st.categories ∧
          ∀ q ∈ n.subcats, ∃ n2, q.2 = some n2 ∧ n2.depth = 2 ∧
            ∀ s ∈ n2.subcats, s.2 = none) :=
  catTree_depth_expansion fetch0 "A" (by decide) 0

end MWiki
